import Mathlib

/-!
Verification development for the ReddyGPT multi-engine search aggregator
(src/ReddyGPT_13.py). The Python module is embedded shallowly: each
provider adapter becomes a pure parsing function over an abstract raw
response, the network outcome of an adapter call is an explicit
`Except Unit` value, and `SearchEngine.search` becomes a pure function of
the list of per-engine result lists collected by `asyncio.gather`.

Raw provider payloads are modelled as records of optional string fields:
`none` models an absent key in the provider JSON, `some s` a present
string value. The Python `dict.get(k, d)` becomes `Option.getD`, while
bracket access `item[k]` (which raises `KeyError` when the key is absent,
aborting the surrounding list comprehension) becomes an `Option`-valued
parse that the adapter-level exception handler coerces to `[]`.
-/

/-- The normalized result record each adapter produces (lines 44-49, 68-73,
82-87 of ReddyGPT_13.py): a dict with keys title, url, snippet, engine.
The serpapi adapter reads the title and link keys via get with no
fallback, so title and url can be the Python None value; they are
therefore Option String here. snippet always receives a string default. -/
structure SearchResult where
  title : Option String
  url : Option String
  snippet : String
  engine : String
deriving DecidableEq

/-- A raw item of a google Custom Search or serpapi organic result: the
three JSON keys the adapters read, each possibly absent. -/
structure RawItem where
  title : Option String
  link : Option String
  snippet : Option String
deriving DecidableEq

/-- A raw DuckDuckGo text result: keys title, href, body, each possibly
absent (lines 82-87). -/
structure DDGRaw where
  title : Option String
  href : Option String
  body : Option String
deriving DecidableEq

namespace SearchEngine

/-- Lines 44-49: one google item. The title and link keys are read with
bracket access, which raises KeyError on an absent key; the result is
none in that case, aborting the whole comprehension. The snippet key is
read via get and defaults to the empty string. -/
def googleParseItem (item : RawItem) : Option SearchResult :=
  match item.title, item.link with
  | some t, some l => some ⟨some t, some l, item.snippet.getD "", "google"⟩
  | _, _ => none

/-- Lines 30-52, `_google_search`: a failed request, or a `KeyError` while
building the comprehension, is caught by the `except` clause and yields `[]`. -/
def google_search (response : Except Unit (List RawItem)) : List SearchResult :=
  match response with
  | Except.error _ => []
  | Except.ok items =>
    match items.mapM googleParseItem with
    | some parsed => parsed
    | none => []

/-- Lines 68-73: one serpapi organic result. The get accesses for the
title and link keys have no default, so an absent key becomes the Python
None value, embedded as none. -/
def serpapiParseItem (item : RawItem) : SearchResult :=
  ⟨item.title, item.link, item.snippet.getD "", "serpapi"⟩

/-- Lines 54-76, `_serpapi_search`: a failed request is caught and yields `[]`;
parsing itself never fails. -/
def serpapi_search (response : Except Unit (List RawItem)) : List SearchResult :=
  match response with
  | Except.error _ => []
  | Except.ok items => items.map serpapiParseItem

/-- Lines 82-87: one DuckDuckGo result. All three accesses use `get` with a
default: title and body default to the empty string, href to the
placeholder string "#". -/
def duckduckgoParseItem (r : DDGRaw) : SearchResult :=
  ⟨some (r.title.getD ""), some (r.href.getD "#"), r.body.getD "", "duckduckgo"⟩

/-- Lines 78-90, `_duckduckgo_search`: a failed request or iteration is caught
and yields `[]`. -/
def duckduckgo_search (response : Except Unit (List DDGRaw)) : List SearchResult :=
  match response with
  | Except.error _ => []
  | Except.ok items => items.map duckduckgoParseItem

/-- Lines 98-104: the dedup loop of `search`. The two nested `for` loops walk
the per-engine lists in gather order, i.e. the flattened merged sequence;
an item whose url is already in `seen_urls` is dropped, otherwise it is
appended and its url recorded. `seen` is the membership-set of urls seen
so far. -/
def dedupByUrl : List SearchResult → List (Option String) → List SearchResult
  | [], _ => []
  | item :: rest, seen =>
    if item.url ∈ seen then dedupByUrl rest seen
    else item :: dedupByUrl rest (item.url :: seen)

/-- Lines 92-105, `SearchEngine.search`, as a function of the per-engine
result lists returned by `asyncio.gather` (in task order): flatten in
engine order, deduplicate by url keeping first occurrences, return the
first 10 entries. -/
def search (results : List (List SearchResult)) : List SearchResult :=
  (dedupByUrl results.flatten []).take 10

/-- The try/except pattern shared by the three adapters (lines 38-52, 62-76,
80-90): the outcome of an adapter body is either a result list or an
exception, and an exception is converted to the empty list. -/
def adapterRecover (outcome : Except Unit (List SearchResult)) : List SearchResult :=
  match outcome with
  | Except.error _ => []
  | Except.ok l => l

/-- End-to-end aggregation from per-adapter outcomes: each adapter recovers
its own failure to `[]` and `search` merges whatever the adapters produced. -/
def searchGathered (outcomes : List (Except Unit (List SearchResult))) : List SearchResult :=
  search (outcomes.map adapterRecover)

/-- Line 95: `asyncio.gather(*tasks)` returns the task results in the order
the tasks were passed, regardless of the order in which the underlying
calls complete. The first argument models the nondeterministic completion
order of the network calls; gather buffers every output and hands back
the task-order list. -/
def asyncioGather (completionOrder : List Nat)
    (taskResults : List (List SearchResult)) : List (List SearchResult) :=
  taskResults

/-- One run of `search` under a given completion order of the provider calls. -/
def searchRun (completionOrder : List Nat)
    (engineOutputs : List (List SearchResult)) : List SearchResult :=
  search (asyncioGather completionOrder engineOutputs)

end SearchEngine

/-- The three sidebar checkboxes created at lines 189-191 of `main`. Their
values are stored in session state under keys use_google, use_serpapi,
use_duckduckgo and are never read again anywhere in the module. -/
structure CheckboxState where
  useGoogle : Bool
  useSerpapi : Bool
  useDuckduckgo : Bool
deriving DecidableEq

/-- The search reached from `main`: `generate_response` calls
`self.search_engine.search(query)` (line 117), which iterates over all of
`self.engines.values()` (line 94) unconditionally; the checkbox state does
not flow into the call. -/
def mainSearch (ui : CheckboxState)
    (googleOut serpapiOut duckduckgoOut : List SearchResult) : List SearchResult :=
  SearchEngine.search [googleOut, serpapiOut, duckduckgoOut]

namespace ReddyGPT

/-- Python string interpolation of a possibly-None value: `None` prints as
the string None. -/
def pyStr : Option String → String
  | some s => s
  | none => "None"

/-- Lines 121-123: the per-result context line. -/
def formatResult (res : SearchResult) : String :=
  "🔍 [" ++ res.engine.toUpper ++ "] " ++ pyStr res.title ++ "\n   " ++
    res.snippet ++ "\n   Source: " ++ pyStr res.url ++ "\n"

/-- Lines 120-125: join the formatted top-5 results, or the fixed no-results
text when the result list is empty (Python truthiness of the list). -/
def buildContext (searchResults : List SearchResult) : String :=
  if searchResults.isEmpty then "No search results found"
  else String.intercalate "\n" ((searchResults.take 5).map formatResult)

/-- Line 139: the user message handed to the completion endpoint. -/
def userMessage (query context : String) : String :=
  "Query: " ++ query ++ "\n\nSearch Results:\n" ++ context

/-- The fallible collaborators of `generate_response`: the outcome of the
search call (line 117), the completion endpoint as a function of the user
message (lines 143-148, yielding the stream of per-chunk optional delta
contents), and whether iterating the stream raises (lines 153-157). -/
structure GenEnv where
  searchOutcome : Except Unit (List SearchResult)
  completionOutcome : String → Except Unit (List (Option String))
  streamFailure : Bool

/-- Line 163: the fixed string returned from the `except` handler. -/
def fallbackMessage : String := "⚠️ I encountered an error. Please try again later."

/-- Lines 151-157: accumulate the chunk contents; a chunk with no content
(or an empty string, which is falsy) contributes nothing. -/
def streamChunks (chunks : List (Option String)) : String :=
  chunks.foldl (fun acc c => acc ++ c.getD "") ""

/-- Lines 113-163, `generate_response`: the whole body sits in one
try/except; any failing step short-circuits to `fallbackMessage`. -/
def generate_response (env : GenEnv) (query : String) : String :=
  match env.searchOutcome with
  | Except.error _ => fallbackMessage
  | Except.ok searchResults =>
    match env.completionOutcome (userMessage query (buildContext searchResults)) with
    | Except.error _ => fallbackMessage
    | Except.ok chunks =>
      if env.streamFailure then fallbackMessage else streamChunks chunks

end ReddyGPT

namespace SearchEngine

/-- A url already recorded as seen never occurs in the dedup output. -/
theorem dedupByUrl_filter_of_mem (u : Option String) :
    ∀ (l : List SearchResult) (seen : List (Option String)), u ∈ seen →
      (dedupByUrl l seen).filter (fun r => r.url = u) = [] := by
  intro l
  induction l with
  | nil => intro seen _; simp [dedupByUrl]
  | cons item rest ih =>
    intro seen hu
    by_cases hm : item.url ∈ seen
    · simp only [dedupByUrl, if_pos hm]
      exact ih seen hu
    · have hne : ¬(item.url = u) := fun h => hm (h ▸ hu)
      simp only [dedupByUrl, if_neg hm, List.filter_cons, decide_eq_true_eq, if_neg hne]
      exact ih (item.url :: seen) (List.mem_cons_of_mem _ hu)

/-- For a url not yet seen, the dedup output keeps exactly the first
merge-order entry carrying it: filtering the dedup output for that url
gives the one-element (or empty) prefix of filtering the input. -/
theorem dedupByUrl_filter_of_not_mem (u : Option String) :
    ∀ (l : List SearchResult) (seen : List (Option String)), u ∉ seen →
      (dedupByUrl l seen).filter (fun r => r.url = u) =
        (l.filter (fun r => r.url = u)).take 1 := by
  intro l
  induction l with
  | nil => intro seen _; simp [dedupByUrl]
  | cons item rest ih =>
    intro seen hu
    by_cases hm : item.url ∈ seen
    · have hne : ¬(item.url = u) := fun h => hu (h ▸ hm)
      simp only [dedupByUrl, if_pos hm, List.filter_cons, decide_eq_true_eq, if_neg hne]
      exact ih seen hu
    · by_cases he : item.url = u
      · simp only [dedupByUrl, if_neg hm, List.filter_cons, decide_eq_true_eq, if_pos he,
          List.take_succ_cons, List.take_zero]
        have : (dedupByUrl rest (item.url :: seen)).filter (fun r => r.url = u) = [] :=
          dedupByUrl_filter_of_mem u rest (item.url :: seen) (he ▸ List.mem_cons_self _ _)
        rw [this]
      · simp only [dedupByUrl, if_neg hm, List.filter_cons, decide_eq_true_eq, if_neg he]
        exact ih (item.url :: seen) (by
          intro hmem
          rcases List.mem_cons.mp hmem with h | h
          · exact he h.symm
          · exact hu h)

/-- Every entry of the dedup output has a url outside the seen set. -/
theorem dedupByUrl_url_not_mem (l : List SearchResult) :
    ∀ (seen : List (Option String)) (r : SearchResult),
      r ∈ dedupByUrl l seen → r.url ∉ seen := by
  induction l with
  | nil => intro seen r h; simp [dedupByUrl] at h
  | cons item rest ih =>
    intro seen r h
    by_cases hm : item.url ∈ seen
    · simp only [dedupByUrl, if_pos hm] at h
      exact ih seen r h
    · simp only [dedupByUrl, if_neg hm] at h
      rcases List.mem_cons.mp h with h | h
      · exact h ▸ hm
      · intro hr
        exact ih (item.url :: seen) r h (List.mem_cons_of_mem _ hr)

/-- No two entries of the dedup output share a url. -/
theorem dedupByUrl_pairwise (l : List SearchResult) :
    ∀ seen : List (Option String),
      (dedupByUrl l seen).Pairwise (fun a b => a.url ≠ b.url) := by
  induction l with
  | nil => intro seen; simp [dedupByUrl]
  | cons item rest ih =>
    intro seen
    by_cases hm : item.url ∈ seen
    · simpa only [dedupByUrl, if_pos hm] using ih seen
    · simp only [dedupByUrl, if_neg hm]
      refine List.Pairwise.cons ?_ (ih (item.url :: seen))
      intro b hb heq
      exact dedupByUrl_url_not_mem rest (item.url :: seen) b hb
        (heq ▸ List.mem_cons_self _ _)

/-- A member of the first-element prefix of a list is its head. -/
theorem head_eq_of_mem_take_one {α : Type} {l : List α} {r : α}
    (h : r ∈ l.take 1) : l.head? = some r := by
  cases l with
  | nil => simp at h
  | cons a rest =>
    simp only [List.take_succ_cons, List.take_zero, List.mem_singleton] at h
    simp [h]

end SearchEngine

/-- C1: for every set of provider result lists, no two entries of the
aggregated output share a url, every output entry is the first entry of
the merged (flattened) sequence carrying its url — later duplicates are
dropped — and the concrete weather scenario aggregates to exactly the
two results keeping the copy of provider A. -/
theorem C1_dedup_first_occurrence (results : List (List SearchResult)) :
    (SearchEngine.search results).Pairwise (fun a b => a.url ≠ b.url) ∧
    (∀ r ∈ SearchEngine.search results,
      (results.flatten.filter (fun x => x.url = r.url)).head? = some r) ∧
    SearchEngine.search
      [[⟨some "X", some "x.com", "", "google"⟩],
       [⟨some "X-dup", some "x.com", "", "serpapi"⟩,
        ⟨some "Y", some "y.com", "", "serpapi"⟩]] =
      [⟨some "X", some "x.com", "", "google"⟩,
       ⟨some "Y", some "y.com", "", "serpapi"⟩] := by
  refine ⟨?_, ?_, by decide⟩
  · exact List.Pairwise.sublist (List.take_sublist _ _)
      (SearchEngine.dedupByUrl_pairwise _ [])
  · intro r hr
    have hd : r ∈ SearchEngine.dedupByUrl results.flatten [] :=
      List.take_subset _ _ hr
    have hfil : r ∈ (SearchEngine.dedupByUrl results.flatten []).filter
        (fun x => x.url = r.url) :=
      List.mem_filter.mpr ⟨hd, by simp⟩
    rw [SearchEngine.dedupByUrl_filter_of_not_mem r.url results.flatten []
      (List.not_mem_nil _)] at hfil
    exact SearchEngine.head_eq_of_mem_take_one hfil

/-- C1 witness: the pairwise-distinct-url conclusion evaluated at the
concrete weather scenario. -/
theorem C1_dedup_first_occurrence_witness :
    (SearchEngine.search
      [[⟨some "X", some "x.com", "", "google"⟩],
       [⟨some "X-dup", some "x.com", "", "serpapi"⟩,
        ⟨some "Y", some "y.com", "", "serpapi"⟩]]).Pairwise
      (fun a b => a.url ≠ b.url) :=
  (C1_dedup_first_occurrence
    [[⟨some "X", some "x.com", "", "google"⟩],
     [⟨some "X-dup", some "x.com", "", "serpapi"⟩,
      ⟨some "Y", some "y.com", "", "serpapi"⟩]]).1

/-- C2: the aggregated result has length at most 10 and is exactly the
first 10 entries of the deduplicated merged sequence. -/
theorem C2_truncation_bound (results : List (List SearchResult)) :
    (SearchEngine.search results).length ≤ 10 ∧
    SearchEngine.search results =
      (SearchEngine.dedupByUrl results.flatten []).take 10 :=
  ⟨List.length_take_le 10 (SearchEngine.dedupByUrl results.flatten []), rfl⟩

/-- C4: two providers with pairwise-distinct urls, A merged first, aggregate
to the results of A in order followed by the results of B in order. -/
theorem C4_order_stability (a1 a2 b1 b2 : SearchResult)
    (h : ([a1, a2, b1, b2].map SearchResult.url).Nodup) :
    SearchEngine.search [[a1, a2], [b1, b2]] = [a1, a2, b1, b2] := by
  simp only [List.map, List.nodup_cons, List.mem_cons, List.not_mem_nil,
    List.mem_singleton, List.nodup_nil, and_true, not_or] at h
  obtain ⟨⟨h12, h13, h14, -⟩, ⟨h23, h24, -⟩, ⟨h34, -⟩, -⟩ := h
  simp [SearchEngine.search, SearchEngine.dedupByUrl,
    Ne.symm h12, Ne.symm h13, Ne.symm h14, Ne.symm h23, Ne.symm h24, Ne.symm h34]

/-- C3: when one provider call fails and the others succeed, the failed
adapter contributes the empty list and the aggregation equals the
aggregation over the successful providers alone. -/
theorem C3_provider_failure_tolerance
    (pre post : List (Except Unit (List SearchResult)))
    (hsucc : ∀ o ∈ pre ++ post, ∃ l, o = Except.ok l) :
    SearchEngine.adapterRecover (Except.error ()) = [] ∧
    SearchEngine.searchGathered (pre ++ Except.error () :: post) =
      SearchEngine.searchGathered (pre ++ post) := by
  refine ⟨rfl, ?_⟩
  unfold SearchEngine.searchGathered SearchEngine.search
  congr 2
  simp [SearchEngine.adapterRecover]

/-- C3 witness: one failed provider between two successful ones is invisible
in the output. -/
theorem C3_provider_failure_tolerance_witness :
    (∀ o ∈ ([Except.ok [(⟨some "A", some "a.com", "", "google"⟩ : SearchResult)],
             Except.ok [(⟨some "B", some "b.com", "", "duckduckgo"⟩ : SearchResult)]] :
        List (Except Unit (List SearchResult))), ∃ l, o = Except.ok l) ∧
    SearchEngine.searchGathered
        ([Except.ok [(⟨some "A", some "a.com", "", "google"⟩ : SearchResult)]] ++
          Except.error () ::
          [Except.ok [(⟨some "B", some "b.com", "", "duckduckgo"⟩ : SearchResult)]]) =
      SearchEngine.searchGathered
        ([Except.ok [(⟨some "A", some "a.com", "", "google"⟩ : SearchResult)]] ++
          [Except.ok [(⟨some "B", some "b.com", "", "duckduckgo"⟩ : SearchResult)]]) :=
  ⟨by rintro o ho; fin_cases ho <;> exact ⟨_, rfl⟩,
   (C3_provider_failure_tolerance _ _
     (by rintro o ho; fin_cases ho <;> exact ⟨_, rfl⟩)).2⟩

/-- C5: when every provider either fails or returns the empty list, the
aggregation returns the empty list (and, being a total function, raises
nothing). -/
theorem C5_total_failure_empty (outcomes : List (Except Unit (List SearchResult)))
    (h : ∀ o ∈ outcomes, o = Except.error () ∨ o = Except.ok []) :
    SearchEngine.searchGathered outcomes = [] := by
  have hflat : ∀ os : List (Except Unit (List SearchResult)),
      (∀ o ∈ os, o = Except.error () ∨ o = Except.ok []) →
      (os.map SearchEngine.adapterRecover).flatten = [] := by
    intro os
    induction os with
    | nil => intro _; rfl
    | cons o rest ih =>
      intro hos
      have hrec : SearchEngine.adapterRecover o = [] := by
        rcases hos o (List.mem_cons_self _ _) with h1 | h1 <;>
          simp [h1, SearchEngine.adapterRecover]
      simp only [List.map_cons, List.flatten_cons, hrec, List.nil_append]
      exact ih (fun o' ho' => hos o' (List.mem_cons_of_mem _ ho'))
  simp [SearchEngine.searchGathered, SearchEngine.search, hflat outcomes h,
    SearchEngine.dedupByUrl]

/-- C5 witness: one erroring provider and one empty provider aggregate to
the empty list. -/
theorem C5_total_failure_empty_witness :
    (∀ o ∈ ([Except.error (), Except.ok []] : List (Except Unit (List SearchResult))),
      o = Except.error () ∨ o = Except.ok []) ∧
    SearchEngine.searchGathered
      ([Except.error (), Except.ok []] : List (Except Unit (List SearchResult))) = [] :=
  ⟨by rintro o ho; fin_cases ho; exacts [Or.inl rfl, Or.inr rfl],
   C5_total_failure_empty _ (by rintro o ho; fin_cases ho; exacts [Or.inl rfl, Or.inr rfl])⟩

/-- C6: when at least two DuckDuckGo raw results lack an href, all results
falling back to the placeholder url collapse into exactly one entry of
the deduplicated merge, namely the first merge-order result carrying the
placeholder. -/
theorem C6_placeholder_url_collapse (raws : List DDGRaw)
    (h : 2 ≤ (raws.filter (fun r => r.href = none)).length) :
    ∃ q, (SearchEngine.dedupByUrl (SearchEngine.duckduckgo_search (Except.ok raws)) []).filter
        (fun r => r.url = some "#") = [q] ∧
      ((SearchEngine.duckduckgo_search (Except.ok raws)).filter
        (fun r => r.url = some "#")).head? = some q := by
  have hex : ∃ r ∈ raws, r.href = none := by
    by_contra hno
    push_neg at hno
    have hnil : raws.filter (fun r => r.href = none) = [] := by
      refine List.filter_eq_nil_iff.mpr ?_
      intro a ha
      simpa using hno a ha
    rw [hnil] at h
    simp at h
  obtain ⟨r, hr, hrnone⟩ := hex
  have hmem : SearchEngine.duckduckgoParseItem r ∈
      SearchEngine.duckduckgo_search (Except.ok raws) :=
    List.mem_map_of_mem _ hr
  have hurl : (SearchEngine.duckduckgoParseItem r).url = some "#" := by
    simp [SearchEngine.duckduckgoParseItem, hrnone]
  have hfne : (SearchEngine.duckduckgo_search (Except.ok raws)).filter
      (fun x => x.url = some "#") ≠ [] := by
    intro hnil
    have := List.filter_eq_nil_iff.mp hnil _ hmem
    simp [hurl] at this
  cases hfil : (SearchEngine.duckduckgo_search (Except.ok raws)).filter
      (fun x => x.url = some "#") with
  | nil => exact absurd hfil hfne
  | cons q tail =>
    refine ⟨q, ?_, ?_⟩
    · rw [SearchEngine.dedupByUrl_filter_of_not_mem (some "#") _ []
        (List.not_mem_nil _), hfil]
      rfl
    · rfl

/-- C6 witness: two href-less DuckDuckGo results collapse to the first one. -/
theorem C6_placeholder_url_collapse_witness :
    2 ≤ (([⟨some "t1", none, none⟩, ⟨some "t2", none, none⟩] : List DDGRaw).filter
      (fun r => r.href = none)).length ∧
    ∃ q, (SearchEngine.dedupByUrl (SearchEngine.duckduckgo_search
        (Except.ok [⟨some "t1", none, none⟩, ⟨some "t2", none, none⟩])) []).filter
        (fun r => r.url = some "#") = [q] ∧
      ((SearchEngine.duckduckgo_search
        (Except.ok [⟨some "t1", none, none⟩, ⟨some "t2", none, none⟩])).filter
        (fun r => r.url = some "#")).head? = some q :=
  ⟨by decide, C6_placeholder_url_collapse _ (by decide)⟩

/-- C4 witness: the order-stability conclusion at four concrete results with
distinct urls. -/
theorem C4_order_stability_witness :
    (([⟨some "A1", some "a1.com", "", "google"⟩, ⟨some "A2", some "a2.com", "", "google"⟩,
       ⟨some "B1", some "b1.com", "", "serpapi"⟩, ⟨some "B2", some "b2.com", "", "serpapi"⟩] :
        List SearchResult).map SearchResult.url).Nodup ∧
    SearchEngine.search
      [[⟨some "A1", some "a1.com", "", "google"⟩, ⟨some "A2", some "a2.com", "", "google"⟩],
       [⟨some "B1", some "b1.com", "", "serpapi"⟩, ⟨some "B2", some "b2.com", "", "serpapi"⟩]] =
      [⟨some "A1", some "a1.com", "", "google"⟩, ⟨some "A2", some "a2.com", "", "google"⟩,
       ⟨some "B1", some "b1.com", "", "serpapi"⟩, ⟨some "B2", some "b2.com", "", "serpapi"⟩] :=
  ⟨by decide, C4_order_stability _ _ _ _ (by decide)⟩

/-- C7 counterexample: the serpapi adapter accepts an organic result with no
title key and produces a SearchResult whose title is null, refuting the
claim that every adapter-produced title is present and non-null. -/
theorem C7_counterexample_serpapi_null_title :
    ∃ r ∈ SearchEngine.serpapi_search (Except.ok [⟨none, none, none⟩]),
      r.title = none :=
  ⟨⟨none, none, "", "serpapi"⟩, by decide, rfl⟩

/-- Every element of a successful Option-valued mapM output comes from some
input element the function accepted. -/
theorem mapM_option_mem {α β : Type} (f : α → Option β) :
    ∀ (l : List α) (out : List β), l.mapM f = some out →
      ∀ b ∈ out, ∃ a ∈ l, f a = some b := by
  intro l
  induction l with
  | nil =>
    intro out h b hb
    simp only [List.mapM_nil, Option.pure_def, Option.some.injEq] at h
    subst h
    simp at hb
  | cons a rest ih =>
    intro out h b hb
    rw [List.mapM_cons] at h
    cases hfa : f a with
    | none => rw [hfa] at h; simp at h
    | some x =>
      rw [hfa] at h
      cases hrest : rest.mapM f with
      | none => rw [hrest] at h; simp at h
      | some xs =>
        rw [hrest] at h
        simp at h
        subst h
        rcases List.mem_cons.mp hb with hb | hb
        · exact ⟨a, List.mem_cons_self _ _, hb ▸ hfa⟩
        · obtain ⟨a', ha', hfa'⟩ := ih xs hrest b hb
          exact ⟨a', List.mem_cons_of_mem _ ha', hfa'⟩

/-- C7 amended: snippet is a string (never null) for every adapter by
construction; the google and duckduckgo adapters also always produce
non-null title and url, but the serpapi adapter passes an absent title
or link key through as null. -/
theorem C7_amended_title_presence (gresp : Except Unit (List RawItem))
    (dresp : Except Unit (List DDGRaw)) :
    (∀ r ∈ SearchEngine.google_search gresp, r.title ≠ none ∧ r.url ≠ none) ∧
    (∀ r ∈ SearchEngine.duckduckgo_search dresp, r.title ≠ none ∧ r.url ≠ none) := by
  constructor
  · intro r hr
    cases gresp with
    | error e => simp [SearchEngine.google_search] at hr
    | ok items =>
      simp only [SearchEngine.google_search] at hr
      cases hparse : items.mapM SearchEngine.googleParseItem with
      | none => rw [hparse] at hr; simp at hr
      | some parsed =>
        rw [hparse] at hr
        have hmem : r ∈ parsed := hr
        obtain ⟨item, -, hitem⟩ :=
          mapM_option_mem SearchEngine.googleParseItem items parsed hparse r hmem
        cases ht : item.title with
        | none => rw [SearchEngine.googleParseItem, ht] at hitem; cases hitem
        | some t =>
          cases hl : item.link with
          | none =>
            rw [SearchEngine.googleParseItem, ht, hl] at hitem
            cases hitem
          | some l =>
            rw [SearchEngine.googleParseItem, ht, hl] at hitem
            cases hitem
            exact ⟨Option.some_ne_none t, Option.some_ne_none l⟩
  · intro r hr
    cases dresp with
    | error e => simp [SearchEngine.duckduckgo_search] at hr
    | ok items =>
      simp only [SearchEngine.duckduckgo_search] at hr
      obtain ⟨raw, -, hraw⟩ := List.mem_map.mp hr
      rw [← hraw]
      exact ⟨Option.some_ne_none _, Option.some_ne_none _⟩

/-- C7 amended witness: the non-null guarantee evaluated on concrete google
and duckduckgo responses. -/
theorem C7_amended_title_presence_witness :
    (∀ r ∈ SearchEngine.google_search
        (Except.ok [⟨some "T", some "t.com", none⟩]), r.title ≠ none ∧ r.url ≠ none) ∧
    (∀ r ∈ SearchEngine.duckduckgo_search
        (Except.ok [⟨none, none, none⟩]), r.title ≠ none ∧ r.url ≠ none) :=
  C7_amended_title_presence (Except.ok [⟨some "T", some "t.com", none⟩])
    (Except.ok [⟨none, none, none⟩])

/-- C8: the aggregation is deterministic and independent of the completion
order of the provider calls: any two runs over the same buffered engine
outputs produce the same output sequence, whatever the completion orders. -/
theorem C8_deterministic_aggregation (order1 order2 : List Nat)
    (engineOutputs : List (List SearchResult)) :
    SearchEngine.searchRun order1 engineOutputs =
      SearchEngine.searchRun order2 engineOutputs :=
  rfl

/-- C9: the sidebar checkbox state has no effect: the search reached from
main always merges all three engines, and its output is identical for any
two checkbox configurations. -/
theorem C9_checkboxes_no_effect (ui1 ui2 : CheckboxState)
    (googleOut serpapiOut duckduckgoOut : List SearchResult) :
    mainSearch ui1 googleOut serpapiOut duckduckgoOut =
      mainSearch ui2 googleOut serpapiOut duckduckgoOut ∧
    mainSearch ui1 googleOut serpapiOut duckduckgoOut =
      SearchEngine.search [googleOut, serpapiOut, duckduckgoOut] :=
  ⟨rfl, rfl⟩

/-- C10: generate_response is a total function into strings, and whenever
any step fails — the search call, the completion call, or iterating the
stream — it returns the fixed fallback message. -/
theorem C10_fallback_on_error (env : ReddyGPT.GenEnv) (query : String)
    (h : env.searchOutcome = Except.error () ∨
      (∃ results, env.searchOutcome = Except.ok results ∧
        env.completionOutcome (ReddyGPT.userMessage query
          (ReddyGPT.buildContext results)) = Except.error ()) ∨
      env.streamFailure = true) :
    ReddyGPT.generate_response env query = ReddyGPT.fallbackMessage := by
  unfold ReddyGPT.generate_response
  split
  · rfl
  · rename_i searchResults hso
    split
    · rfl
    · rename_i chunks hco
      rcases h with h | ⟨results, hs, hc⟩ | h
      · rw [hso] at h
        exact absurd h (by simp)
      · rw [hso] at hs
        injection hs with hs
        subst hs
        rw [hc] at hco
        exact absurd hco (by simp)
      · rw [h]
        simp

/-- C10 witness: a failing search call yields the fallback message. -/
theorem C10_fallback_on_error_witness :
    (ReddyGPT.GenEnv.mk (Except.error ()) (fun _ => Except.ok []) false).searchOutcome =
      Except.error () ∧
    ReddyGPT.generate_response
      (ReddyGPT.GenEnv.mk (Except.error ()) (fun _ => Except.ok []) false) "weather" =
      ReddyGPT.fallbackMessage :=
  ⟨rfl, C10_fallback_on_error _ "weather" (Or.inl rfl)⟩
